import Mathlib

/-!
# Verification of the munch-club matching and confirmation engine

Shallow embedding of the core matching logic of the repository
(`findPotentialMatches`, `acceptMatch`, `declineMatch`, the priority-score
ledger `getPriorityScore` / `updatePriorityScore` / `calculateBaselineScore`)
as pure Lean functions over an explicit store state, together with theorems
settling the frozen claims about this code.

Conventions of the embedding:
* Firestore collections become lists kept in insertion order; `getDocs` of a
  filtered query becomes `List.filter`, `querySnapshot.docs[0]` becomes the
  head of that filtered list, `addDoc` appends a document carrying a fresh id
  drawn from a counter, `updateDoc` maps over the list replacing the addressed
  document's fields.
* JavaScript numbers that carry scores become `ℚ` (the score arithmetic of the
  source is exact rational arithmetic: sums, divisions, `Math.round`,
  `Math.min`/`Math.max`).
* `async` functions become state-passing functions `DB → α × DB`; a thrown
  and uncaught `Error` becomes `Except.error` carrying the message; a
  `try/catch` that swallows or rewraps becomes a `match` on that `Except`.
* `Math.random()`-derived choices (day shuffling, slot and location picks)
  become an explicit `Rand` parameter, quantified universally in theorems.
* `Timestamp.now()` becomes the state's `now : Nat` tick.
-/

deriving instance DecidableEq for Except

namespace MunchClub

/-- Lexicographic comparison of character lists by code value: the order JS
`<` puts on strings. -/
def charListLt : List Char → List Char → Bool
  | _, [] => false
  | [], _ :: _ => true
  | a :: as, b :: bs =>
    if a.val.toNat < b.val.toNat then true
    else if b.val.toNat < a.val.toNat then false
    else charListLt as bs

/-- JS `a < b` on strings: lexicographic by character code. -/
def strLt (a b : String) : Bool := charListLt a.data b.data

/-- JS truthiness of an optional string field: `undefined` and `""` are falsy. -/
def strTruthy : Option String → Bool
  | some s => s ≠ ""
  | none => false

/-- `UserSurveyData` (api.ts). Fields the matching code guards for presence are
`Option`; a missing Firestore field is `none`. -/
structure UserSurveyData where
  mealTalkPreferences : Option (List String)
  conversationStyle : Option String
  disagreementTolerance : Option String
  conversationPace : Option String
  foodPersonality : Option String
  companionPetPeeve : Option String
  favoriteDiningHalls : Option (List String)
  phoneNumber : Option String
  deriving DecidableEq, Repr

/-- `UserProfile` (api.ts). -/
structure UserProfile where
  uid : String
  email : Option String
  displayName : Option String
  surveyCompleted : Bool
  surveyData : Option UserSurveyData
  deriving DecidableEq, Repr

/-- `WeeklyAvailabilityData.availability : Record<string, string[]>`, a map
from `YYYY-MM-DD` day keys to lists of `HH:MM` slot labels, as an association
list in key-insertion order (`Object.keys` order). -/
structure WeeklyAvailabilityData where
  availability : List (String × List String)
  deriving DecidableEq, Repr

/-- One entry of a match document's `acceptedBy` map. -/
structure AcceptInfo where
  timestamp : Nat
  isFirst : Bool
  deriving DecidableEq, Repr

/-- `Match` (api.ts).  The source stores `suggestedTime` as the Firestore
`Timestamp` of `new Date(year, month-1, day, hours, minutes)` built by parsing
the chosen `matchDay` (`"YYYY-MM-DD"`) and `matchTime` (`"HH:MM"`); we keep the
two strings that determine it, `suggestedDay` and `suggestedSlot`. -/
structure Match where
  id : String
  userId : String
  matchUserId : String
  matchUser : Option UserProfile
  suggestedDay : String
  suggestedSlot : String
  suggestedLocation : String
  status : String
  createdAt : Nat
  priorityScore : Option ℚ
  acceptedBy : Option (List (String × AcceptInfo))
  deriving DecidableEq, Repr

/-- `PriorityScore` ledger document (api.ts). -/
structure PriorityScore where
  id : Nat
  user1Id : String
  user2Id : String
  score : ℚ
  lastUpdated : Nat
  deriving DecidableEq, Repr

/-- `Notification` (api.ts).  The `content` display string is built with
locale-dependent date formatting in the source; it is kept abstract here
(claims never inspect it). -/
structure Notification where
  id : Nat
  userId : String
  type : String
  relatedUserId : Option String
  relatedMatchId : Option String
  read : Bool
  createdAt : Nat
  deriving DecidableEq, Repr

/-- The backing store: the `users`, `userAvailability`, `matches`,
`priorityScores`, `locations` and `notifications` collections, a fresh-id
counter for `addDoc`/`doc()` and the current `Timestamp.now()` tick.
`avails` holds, per user, the availability record that
`getUserAvailability(userId, new Date())` resolves (the source's Monday-week
key computation and recurring-template fallback depend on the wall clock; the
resolved result is part of the state). -/
structure DB where
  users : List UserProfile
  avails : List (String × WeeklyAvailabilityData)
  -- the `matches` collection (`matches` is a reserved word in Lean)
  matchDocs : List Match
  priorityScores : List PriorityScore
  locations : List String
  notifications : List Notification
  nextId : Nat
  now : Nat
  deriving DecidableEq, Repr

/-- `getUserProfile(userId)`: the `users/{userId}` document, or `null`. -/
def getUserProfile (db : DB) (userId : String) : Option UserProfile :=
  db.users.find? (fun u => u.uid == userId)

/-- `getUserAvailability(userId, new Date())` as resolved against the state
(see `DB.avails`). -/
def getUserAvailability (db : DB) (userId : String) : Option WeeklyAvailabilityData :=
  (db.avails.find? (fun p => p.1 == userId)).map (·.2)

/-- Indexing `availability[day]` on an availability record. -/
def availLookup (w : WeeklyAvailabilityData) (day : String) : Option (List String) :=
  (w.availability.find? (fun p => p.1 == day)).map (·.2)

/-- `Object.keys(availability)`. -/
def availDays (w : WeeklyAvailabilityData) : List String :=
  w.availability.map (·.1)

/-- The per-day slot intersection
`userTimesForDay.filter(time => otherUserTimesForDay.includes(time))` of two
availability maps, a day with no entry contributing the empty list. -/
def slotIntersection (uw cw : WeeklyAvailabilityData) (day : String) : List String :=
  ((availLookup uw day).getD []).filter (fun t => ((availLookup cw day).getD []).contains t)

/-! ## Priority Score Ledger -/

/-- JS `Math.round` on the non-negative rationals the score computation
produces: round half away from zero, i.e. `⌊x + 1/2⌋`. -/
def jsRound (x : ℚ) : ℚ := ((x + 1/2).floor : ℚ)

/-- The last lines of `calculateBaselineScore`: `5` when no dimension was
comparable (`maxPoints === 0`), otherwise
`Math.max(3, Math.min(7, Math.round(points / maxPoints * 10)))`. -/
def normalizeBaseline (points maxPoints : ℚ) : ℚ :=
  if maxPoints = 0 then 5
  else max 3 (min 7 (jsRound (points / maxPoints * 10)))

/-- `calculateBaselineScore(user1, user2)` (api.ts): weighted survey-agreement
heuristic, `5` when either side has no survey data or no dimension is
comparable, otherwise the normalized score clamped into `[3, 7]`. -/
def calculateBaselineScore (user1 user2 : UserProfile) : ℚ :=
  match user1.surveyData, user2.surveyData with
  | some sd1, some sd2 =>
    let acc0 : ℚ × ℚ := (0, 0)
    -- Compare meal talk preferences (0-2 points)
    let acc1 : ℚ × ℚ :=
      match sd1.mealTalkPreferences, sd2.mealTalkPreferences with
      | some p1, some p2 =>
        let overlappingPreferences := p1.filter (fun pref => p2.contains pref)
        let totalPreferences := (p1 ++ p2).dedup.length
        let pts : ℚ :=
          if totalPreferences > 0 then
            acc0.1 + ((overlappingPreferences.length : ℚ) / (totalPreferences : ℚ)) * 2
          else acc0.1
        (pts, acc0.2 + 2)
      | _, _ => acc0
    -- Compare conversation style (0-2 points)
    let acc2 : ℚ × ℚ :=
      if strTruthy sd1.conversationStyle && strTruthy sd2.conversationStyle then
        (if sd1.conversationStyle == sd2.conversationStyle then (acc1.1 + 2, acc1.2 + 2)
         else (acc1.1, acc1.2 + 2))
      else acc1
    -- Compare conversation pace (0-2 points)
    let acc3 : ℚ × ℚ :=
      if strTruthy sd1.conversationPace && strTruthy sd2.conversationPace then
        (if sd1.conversationPace == sd2.conversationPace then (acc2.1 + 2, acc2.2 + 2)
         else (acc2.1, acc2.2 + 2))
      else acc2
    -- Compare favorite dining halls (0-2 points)
    let acc4 : ℚ × ℚ :=
      match sd1.favoriteDiningHalls, sd2.favoriteDiningHalls with
      | some h1, some h2 =>
        let overlappingDiningHalls := h1.filter (fun hall => h2.contains hall)
        (if overlappingDiningHalls.length > 0 then
           acc3.1 + min 2 (overlappingDiningHalls.length : ℚ)
         else acc3.1, acc3.2 + 2)
      | _, _ => acc3
    -- Compare food personality (0-2 points)
    let acc5 : ℚ × ℚ :=
      if strTruthy sd1.foodPersonality && strTruthy sd2.foodPersonality then
        (if sd1.foodPersonality == sd2.foodPersonality then (acc4.1 + 2, acc4.2 + 2)
         else (acc4.1, acc4.2 + 2))
      else acc4
    normalizeBaseline acc5.1 acc5.2
  | _, _ => 5

/-- The canonical `[user1Id, user2Id] = userId1 < userId2 ? … : …` ordering. -/
def canonicalPair (userId1 userId2 : String) : String × String :=
  if strLt userId1 userId2 then (userId1, userId2) else (userId2, userId1)

/-- The `where('user1Id','==',u1), where('user2Id','==',u2)` query over the
`priorityScores` collection. -/
def ledgerQuery (db : DB) (u1 u2 : String) : List PriorityScore :=
  db.priorityScores.filter (fun d => d.user1Id == u1 && d.user2Id == u2)

/-- `addDoc(priorityScoreCollection, {user1Id, user2Id, score, lastUpdated})`. -/
def addScoreDoc (db : DB) (u1 u2 : String) (score : ℚ) : DB :=
  { db with
    priorityScores := db.priorityScores ++ [⟨db.nextId, u1, u2, score, db.now⟩]
    nextId := db.nextId + 1 }

/-- Injected `TransientStoreFailure`s for the store operations
`getPriorityScore` performs, in execution order: the ledger query, the two
profile reads, the baseline `addDoc`.  A flag only matters when the operation
it names is actually executed. -/
structure StoreEnv where
  queryFails : Bool
  profile1Fails : Bool
  profile2Fails : Bool
  addFails : Bool
  deriving DecidableEq, Repr

/-- The environment in which no store operation fails. -/
def reliableEnv : StoreEnv := ⟨false, false, false, false⟩

/-- `getPriorityScore(userId1, userId2)` (api.ts) with failure injection.
Every failure path runs the source's `catch` and returns the default `5`
without any write. -/
def getPriorityScoreF (env : StoreEnv) (db : DB) (userId1 userId2 : String) : ℚ × DB :=
  let p := canonicalPair userId1 userId2
  if env.queryFails then (5, db) else
  match ledgerQuery db p.1 p.2 with
  | d :: _ => (d.score, db)
  | [] =>
    if env.profile1Fails then (5, db) else
    if env.profile2Fails then (5, db) else
    match getUserProfile db p.1, getUserProfile db p.2 with
    | some user1Profile, some user2Profile =>
      let baselineScore := calculateBaselineScore user1Profile user2Profile
      if env.addFails then (5, db)
      else (baselineScore, addScoreDoc db p.1 p.2 baselineScore)
    | _, _ => (5, db)

/-- `getPriorityScore` with all store operations succeeding. -/
def getPriorityScore (db : DB) (userId1 userId2 : String) : ℚ × DB :=
  getPriorityScoreF reliableEnv db userId1 userId2

/-- `Math.max(0, Math.min(10, x))`. -/
def clamp10 (x : ℚ) : ℚ := max 0 (min 10 x)

/-- Injected `TransientStoreFailure`s for `updatePriorityScore`'s own store
operations (its query, its `addDoc`, its `updateDoc`) and, nested, for the
`getPriorityScore` call it makes on the empty-ledger path. -/
structure UpdateEnv where
  queryFails : Bool
  inner : StoreEnv
  addFails : Bool
  updateFails : Bool
  deriving DecidableEq, Repr

/-- The environment in which no store operation fails. -/
def reliableUpdateEnv : UpdateEnv := ⟨false, reliableEnv, false, false⟩

/-- `updatePriorityScore(userId1, userId2, adjustment)` (api.ts) with failure
injection.  The source catches every error, logs it and returns, so the
function never fails: a failing operation simply leaves the rest undone. -/
def updatePriorityScoreF (env : UpdateEnv) (db : DB) (userId1 userId2 : String)
    (adjustment : ℚ) : DB :=
  let p := canonicalPair userId1 userId2
  if env.queryFails then db else
  match ledgerQuery db p.1 p.2 with
  | [] =>
    -- no score exists: compute baseline via getPriorityScore, then addDoc
    let r := getPriorityScoreF env.inner db p.1 p.2
    if env.addFails then r.2
    else addScoreDoc r.2 p.1 p.2 (clamp10 (r.1 + adjustment))
  | scoreDoc :: _ =>
    let newScore := clamp10 (scoreDoc.score + adjustment)
    if env.updateFails then db
    else
      { db with
        priorityScores := db.priorityScores.map (fun e =>
          if e.id == scoreDoc.id then { e with score := newScore, lastUpdated := db.now }
          else e) }

/-- `updatePriorityScore` with all store operations succeeding. -/
def updatePriorityScore (db : DB) (userId1 userId2 : String) (adjustment : ℚ) : DB :=
  updatePriorityScoreF reliableUpdateEnv db userId1 userId2 adjustment

/-! ## Match lifecycle: `acceptMatch` / `declineMatch` -/

/-- Reading `doc(db, "matches", matchId)`. -/
def findMatchDoc (db : DB) (matchId : String) : Option Match :=
  db.matchDocs.find? (fun m => m.id == matchId)

/-- `acceptedBy[userId] = {timestamp, isFirst}`: JS object-key assignment,
overwriting an existing entry or appending a new one. -/
def setAccepted (l : List (String × AcceptInfo)) (userId : String) (v : AcceptInfo) :
    List (String × AcceptInfo) :=
  if l.any (fun p => p.1 == userId) then
    l.map (fun p => if p.1 == userId then (userId, v) else p)
  else l ++ [(userId, v)]

/-- `batch.update(matchRef, {status, acceptedBy})`. -/
def updateMatchStatusAccepted (db : DB) (matchId : String) (status : String)
    (acceptedBy : Option (List (String × AcceptInfo))) : DB :=
  { db with
    matchDocs := db.matchDocs.map (fun m =>
      if m.id == matchId then { m with status := status, acceptedBy := acceptedBy } else m) }

/-- `updateDoc(matchRef, {status})` (only the status field). -/
def updateMatchStatus (db : DB) (matchId : String) (status : String) : DB :=
  { db with
    matchDocs := db.matchDocs.map (fun m =>
      if m.id == matchId then { m with status := status } else m) }

/-- The `otherUserProfile?.surveyData?.phoneNumber` truthiness lookup in
`acceptMatch`'s second-acceptance branch. -/
def profilePhone (db : DB) (userId : String) : Option String :=
  match (getUserProfile db userId).bind (·.surveyData) with
  | some sd => if strTruthy sd.phoneNumber then sd.phoneNumber else none
  | none => none

/-- The tail of `acceptMatch` after the caller's role (and so `otherUserId`)
is established: terminal-status checks, then the first/second acceptance
branches with their score bump, notification and batched match update. -/
def acceptMatchAuthorized (db : DB) (userId matchId : String) (matchData : Match)
    (otherUserId : String) : Except String (String × Option String) × DB :=
  if matchData.status == "matched" then (.ok ("already_matched", none), db)
  else if matchData.status == "declined" then
    (.error "This match was declined and cannot be accepted", db)
  else if matchData.status == "accepted" && matchData.acceptedBy.isSome then
    -- second acceptance: newStatus = 'matched', reveal phone, +3, notification
    let phoneNumber := profilePhone db otherUserId
    let db1 := updatePriorityScore db userId otherUserId 3
    let notif : Notification :=
      { id := db1.nextId, userId := otherUserId, type := "match_complete"
        relatedUserId := some userId, relatedMatchId := some matchId
        read := false, createdAt := db1.now }
    let db2 := { db1 with notifications := db1.notifications ++ [notif]
                          nextId := db1.nextId + 1 }
    let acceptedBy := setAccepted (matchData.acceptedBy.getD []) userId
      ⟨db2.now, false⟩
    (.ok ("matched", phoneNumber),
      updateMatchStatusAccepted db2 matchId "matched" (some acceptedBy))
  else
    -- first acceptance: newStatus = 'accepted', +1
    let db1 := updatePriorityScore db userId otherUserId 1
    let acceptedBy := setAccepted (matchData.acceptedBy.getD []) userId
      ⟨db1.now, true⟩
    (.ok ("accepted", none),
      updateMatchStatusAccepted db1 matchId "accepted" (some acceptedBy))

/-- The body of `acceptMatch(userId, matchId)` (api.ts) inside its `try`:
the typed failures `Match not found` / `You don't have permission to accept
this match` / `This match was declined and cannot be accepted` are thrown as
distinct errors here; the outer wrapper below rethrows them generically. -/
def acceptMatchBody (db : DB) (userId matchId : String) :
    Except String (String × Option String) × DB :=
  match findMatchDoc db matchId with
  | none => (.error "Match not found", db)
  | some matchData =>
    if matchData.userId == userId then
      acceptMatchAuthorized db userId matchId matchData matchData.matchUserId
    else if matchData.matchUserId == userId then
      acceptMatchAuthorized db userId matchId matchData matchData.userId
    else (.error "You don't have permission to accept this match", db)

/-- `acceptMatch(userId, matchId)` (api.ts): the outer `catch` logs any error
from the body and rethrows the generic `Failed to accept meal match.`. -/
def acceptMatch (db : DB) (userId matchId : String) :
    Except String (String × Option String) × DB :=
  match acceptMatchBody db userId matchId with
  | (.error _, db') => (.error "Failed to accept meal match.", db')
  | ok => ok

/-- The body of `declineMatch(userId, matchId)` (api.ts) inside its `try`. -/
def declineMatchBody (db : DB) (userId matchId : String) : Except String Unit × DB :=
  match findMatchDoc db matchId with
  | none => (.error "Match not found", db)
  | some matchData =>
    if matchData.userId != userId && matchData.matchUserId != userId then
      (.error "You don't have permission to decline this match", db)
    else
      let otherUserId :=
        if matchData.userId == userId then matchData.matchUserId else matchData.userId
      let db1 := updatePriorityScore db userId otherUserId (-1)
      (.ok (), updateMatchStatus db1 matchId "declined")

/-- `declineMatch(userId, matchId)` (api.ts): the outer `catch` rethrows the
generic `Failed to decline meal match.`. -/
def declineMatch (db : DB) (userId matchId : String) : Except String Unit × DB :=
  match declineMatchBody db userId matchId with
  | (.error _, db') => (.error "Failed to decline meal match.", db')
  | ok => ok

/-! ## `findPotentialMatches`: candidate ranking, slot negotiation, proposal
creation -/

/-- The fallback profile `{uid, email: null, displayName: null}` used when a
pending match's candidate has no stored profile. -/
def stubProfile (uid : String) : UserProfile :=
  { uid := uid, email := none, displayName := none
    surveyCompleted := false, surveyData := none }

/-- The hard-coded `defaultLocations` list. -/
def defaultLocations : List String :=
  ["Tresidder Union", "Coho Cafe", "Arbuckle Dining", "Bytes Cafe", "The Axe & Palm"]

/-- The injected source of the `Math.random()` draws `findPotentialMatches`
makes while processing its k-th ranked candidate: the day shuffle
`[...availableDays].sort(() => 0.5 - Math.random())` (an arbitrary reordering
of the day list), the random index into the overlapping-times list and the
random index into the location list (`Math.floor(Math.random() * n)`, an
arbitrary value below `n`, modelled as an arbitrary natural taken mod `n`). -/
structure Rand where
  shuffle : Nat → List String → List String
  timePick : Nat → Nat
  locPick : Nat → Nat

/-- One entry of the `usersWithPriorityScores` array. -/
structure RankedUser where
  user : UserProfile
  overlap : Nat
  diningHalls : List String
  priorityScore : ℚ
  deriving DecidableEq, Repr

/-- The `availableUsers.map` body computing each candidate's priority score
(persisting a baseline when none exists), skipping candidates whose score is
exactly `0`, and recording their dining-hall overlap with the requester. -/
def scoreCandidates (userId : String) (userFavoriteDiningHalls : List String) :
    DB → List UserProfile → List (Option RankedUser) × DB
  | db, [] => ([], db)
  | db, user :: rest =>
    let r := getPriorityScore db userId user.uid
    let entry : Option RankedUser :=
      if r.1 == 0 then none
      else
        match user.surveyData.bind (·.favoriteDiningHalls) with
        | none => some ⟨user, 0, [], r.1⟩
        | some otherUserDiningHalls =>
          let overlappingDiningHalls := otherUserDiningHalls.filter (fun hall =>
            userFavoriteDiningHalls.contains hall)
          some ⟨user, overlappingDiningHalls.length,
            if overlappingDiningHalls.length > 0 then overlappingDiningHalls
            else otherUserDiningHalls, r.1⟩
    let rec' := scoreCandidates userId userFavoriteDiningHalls r.2 rest
    (entry :: rec'.1, rec'.2)

/-- The sort comparator
`b.priorityScore - a.priorityScore`, tie-broken by `b.overlap - a.overlap`. -/
def rankComparator (a b : RankedUser) : ℚ :=
  if b.priorityScore ≠ a.priorityScore then b.priorityScore - a.priorityScore
  else (b.overlap : ℚ) - (a.overlap : ℚ)

/-- Stable insertion (for the model of the stable `Array.prototype.sort`):
walk past every element that strictly precedes `a` under the comparator and
place `a` before the first element that does not, so that elements comparing
equal keep their original relative order. -/
def insertRanked (a : RankedUser) : List RankedUser → List RankedUser
  | [] => [a]
  | b :: bs => if rankComparator b a < 0 then b :: insertRanked a bs else a :: b :: bs

/-- `filteredUsers.sort(comparator)`: stable sort by descending priority score
then descending dining-hall overlap. -/
def sortRanked : List RankedUser → List RankedUser
  | [] => []
  | a :: as => insertRanked a (sortRanked as)

/-- The day loop of the slot negotiation: iterate the (shuffled) days, skip a
day when the requester has no (or an empty) slot list or the candidate's slot
list defaults to empty, and on the first day with a non-empty intersection
return it with the randomly picked overlapping time. -/
def findOverlapSlot (userAvailability otherUserAvailability : WeeklyAvailabilityData)
    (pick : Nat) : List String → Option (String × String)
  | [] => none
  | day :: rest =>
    match availLookup userAvailability day with
    | none => findOverlapSlot userAvailability otherUserAvailability pick rest
    | some userTimesForDay =>
      if userTimesForDay.isEmpty then
        findOverlapSlot userAvailability otherUserAvailability pick rest
      else
        let otherUserTimesForDay := (availLookup otherUserAvailability day).getD []
        if otherUserTimesForDay.isEmpty then
          findOverlapSlot userAvailability otherUserAvailability pick rest
        else
          let overlappingTimes := userTimesForDay.filter (fun time =>
            otherUserTimesForDay.contains time)
          if overlappingTimes.isEmpty then
            findOverlapSlot userAvailability otherUserAvailability pick rest
          else
            some (day, overlappingTimes.getD (pick % overlappingTimes.length) "")

/-- The `for (const … of usersToMatch)` loop: per candidate, skip if already
matched in this run, skip if the candidate has no (or empty) availability,
negotiate a slot over the shuffled days, skip if none, otherwise pick a
location and `addDoc` the new `pending` match.  `k` counts the iterations for
the randomness source; `matchedUsers` accumulates handled candidate ids. -/
def proposeLoop (rnd : Rand) (userAvailability : WeeklyAvailabilityData)
    (availableDays mealLocations : List String) (userId : String) :
    DB → List RankedUser → List String → Nat → List Match × DB
  | db, [], _, _ => ([], db)
  | db, c :: rest, matchedUsers, k =>
    if matchedUsers.contains c.user.uid then
      proposeLoop rnd userAvailability availableDays mealLocations userId
        db rest matchedUsers (k + 1)
    else
      match getUserAvailability db c.user.uid with
      | none =>
        proposeLoop rnd userAvailability availableDays mealLocations userId
          db rest matchedUsers (k + 1)
      | some otherUserAvailability =>
        if otherUserAvailability.availability.isEmpty then
          proposeLoop rnd userAvailability availableDays mealLocations userId
            db rest matchedUsers (k + 1)
        else
          let matchedUsers' := matchedUsers ++ [c.user.uid]
          let shuffledDays := rnd.shuffle k availableDays
          match findOverlapSlot userAvailability otherUserAvailability
              (rnd.timePick k) shuffledDays with
          | none =>
            proposeLoop rnd userAvailability availableDays mealLocations userId
              db rest matchedUsers' (k + 1)
          | some daySlot =>
            let matchLocation :=
              if c.diningHalls.length > 0 then
                c.diningHalls.getD (rnd.locPick k % c.diningHalls.length) ""
              else
                mealLocations.getD (rnd.locPick k % mealLocations.length) ""
            let newMatch : Match :=
              { id := toString db.nextId, userId := userId, matchUserId := c.user.uid
                matchUser := some c.user, suggestedDay := daySlot.1
                suggestedSlot := daySlot.2, suggestedLocation := matchLocation
                status := "pending", createdAt := db.now
                priorityScore := some c.priorityScore, acceptedBy := none }
            let db' := { db with matchDocs := db.matchDocs ++ [newMatch]
                                 nextId := db.nextId + 1 }
            let rec' := proposeLoop rnd userAvailability availableDays mealLocations
              userId db' rest matchedUsers' (k + 1)
            (newMatch :: rec'.1, rec'.2)

/-- Hydrating an existing pending match with the candidate's current profile
(or the stub profile when none is stored). -/
def hydrateMatch (db : DB) (m : Match) : Match :=
  { m with matchUser := some ((getUserProfile db m.matchUserId).getD
      (stubProfile m.matchUserId)) }

/-- `findPotentialMatches(userId)` (api.ts): return `[]` when the requester
has no (or empty) availability; return the hydrated existing `pending`
proposals when any exist; otherwise rank the survey-completed users by
priority score and dining-hall overlap, take the top 3 and create a `pending`
proposal for each candidate with whom a common free slot exists. -/
def findPotentialMatches (rnd : Rand) (db : DB) (userId : String) : List Match × DB :=
  match getUserAvailability db userId with
  | none => ([], db)
  | some userAvailability =>
    if userAvailability.availability.isEmpty then ([], db)
    else
      let existingMatches := db.matchDocs.filter (fun m =>
        m.userId == userId && m.status == "pending")
      if !existingMatches.isEmpty then
        (existingMatches.map (hydrateMatch db), db)
      else
        let availableDays := availDays userAvailability
        let availableUsers := db.users.filter (fun u =>
          u.surveyCompleted && u.uid != userId)
        let mealLocations :=
          if db.locations.length > 0 then db.locations else defaultLocations
        let currentUserProfile := getUserProfile db userId
        let userFavoriteDiningHalls :=
          ((currentUserProfile.bind (·.surveyData)).bind
            (·.favoriteDiningHalls)).getD []
        let scored := scoreCandidates userId userFavoriteDiningHalls db availableUsers
        let filteredUsers := scored.1.reduceOption
        let usersToMatch := (sortRanked filteredUsers).take 3
        proposeLoop rnd userAvailability availableDays mealLocations userId
          scored.2 usersToMatch [] 0

/-! ## Operation alphabets for trace invariants -/

/-- The score-bounds invariant: every persisted ledger record's score lies in
`[0, 10]`. -/
def ScoreInv (db : DB) : Prop := ∀ d ∈ db.priorityScores, 0 ≤ d.score ∧ d.score ≤ 10

/-- One call against the score ledger, with injected store failures. -/
inductive LedgerOp where
  | getScore : StoreEnv → String → String → LedgerOp
  | adjust : UpdateEnv → String → String → ℚ → LedgerOp

/-- Apply one ledger call to the store. -/
def applyLedgerOp (db : DB) : LedgerOp → DB
  | .getScore env a b => (getPriorityScoreF env db a b).2
  | .adjust env a b d => updatePriorityScoreF env db a b d

/-- One `accept` or `decline` request against the store. -/
inductive LifecycleOp where
  | accept : String → String → LifecycleOp
  | decline : String → String → LifecycleOp

/-- Apply one lifecycle request to the store (keeping its resulting state). -/
def applyLifecycleOp (db : DB) : LifecycleOp → DB
  | .accept u pid => (acceptMatch db u pid).2
  | .decline u pid => (declineMatch db u pid).2

/-! ## Concrete fixtures used by counterexamples and witnesses -/

/-- A survey record whose only populated field is the phone number. -/
def sdPhoneB : UserSurveyData :=
  { mealTalkPreferences := none, conversationStyle := none
    disagreementTolerance := none, conversationPace := none
    foodPersonality := none, companionPetPeeve := none
    favoriteDiningHalls := none, phoneNumber := some "555-0100" }

/-- User `a`, survey completed, no survey details stored. -/
def profileA : UserProfile :=
  { uid := "a", email := some "a@example.edu", displayName := none
    surveyCompleted := true, surveyData := none }

/-- User `b`, survey completed, phone number on file. -/
def profileB : UserProfile :=
  { uid := "b", email := some "b@example.edu", displayName := none
    surveyCompleted := true, surveyData := some sdPhoneB }

/-- A proposal between `a` (initiator) and `b` in status `accepted` whose only
`acceptedBy` entry was recorded by `a` — i.e. `b`, the other party, has never
accepted. -/
def acceptedOnlyByA : Match :=
  { id := "m1", userId := "a", matchUserId := "b", matchUser := none
    suggestedDay := "2023-08-01", suggestedSlot := "12:30"
    suggestedLocation := "Coho Cafe", status := "accepted", createdAt := 50
    priorityScore := some 5, acceptedBy := some [("a", ⟨60, true⟩)] }

/-- Store holding only `acceptedOnlyByA`. -/
def dbAcceptedByA : DB :=
  { users := [profileA, profileB], avails := [], matchDocs := [acceptedOnlyByA]
    priorityScores := [], locations := [], notifications := []
    nextId := 0, now := 100 }

/-- A completed (`matched`) proposal between `a` and `b`. -/
def matchedMatch : Match :=
  { id := "m2", userId := "a", matchUserId := "b", matchUser := none
    suggestedDay := "2023-08-01", suggestedSlot := "12:30"
    suggestedLocation := "Coho Cafe", status := "matched", createdAt := 50
    priorityScore := some 5
    acceptedBy := some [("b", ⟨55, true⟩), ("a", ⟨60, false⟩)] }

/-- Store holding only `matchedMatch`. -/
def dbMatched : DB :=
  { users := [profileA, profileB], avails := [], matchDocs := [matchedMatch]
    priorityScores := [], locations := [], notifications := []
    nextId := 0, now := 100 }

/-- A declined proposal between `a` and `b`. -/
def declinedMatch : Match :=
  { id := "m4", userId := "a", matchUserId := "b", matchUser := none
    suggestedDay := "2023-08-01", suggestedSlot := "12:30"
    suggestedLocation := "Coho Cafe", status := "declined", createdAt := 50
    priorityScore := some 5, acceptedBy := none }

/-- Store holding only `declinedMatch`. -/
def dbDeclined : DB :=
  { users := [profileA, profileB], avails := [], matchDocs := [declinedMatch]
    priorityScores := [], locations := [], notifications := []
    nextId := 0, now := 100 }

/-- Store with user profiles for `a` and `b` and an empty score ledger. -/
def dbPair : DB :=
  { users := [profileA, profileB], avails := [], matchDocs := []
    priorityScores := [], locations := [], notifications := []
    nextId := 0, now := 100 }

/-- A pending proposal initiated by `a` against `b`. -/
def pendingMatchAB : Match :=
  { id := "m3", userId := "a", matchUserId := "b", matchUser := none
    suggestedDay := "2023-08-01", suggestedSlot := "12:30"
    suggestedLocation := "Coho Cafe", status := "pending", createdAt := 50
    priorityScore := some 5, acceptedBy := none }

/-- Store where `a` has a pending proposal but no availability record. -/
def dbPendingNoAvail : DB :=
  { users := [profileA, profileB], avails := [], matchDocs := [pendingMatchAB]
    priorityScores := [], locations := [], notifications := []
    nextId := 0, now := 100 }

/-- A deterministic stand-in for the random source: identity shuffle, index 0
picks. -/
def constRand : Rand := ⟨fun _ l => l, fun _ => 0, fun _ => 0⟩

/-- User `a`'s availability: `2023-08-01 → [12:00, 12:30, 13:00]` (the spec's
concrete scenario). -/
def availA : WeeklyAvailabilityData := ⟨[("2023-08-01", ["12:00", "12:30", "13:00"])]⟩

/-- User `b`'s availability: `2023-08-01 → [12:30, 13:00, 13:30]` (the spec's
concrete scenario). -/
def availB : WeeklyAvailabilityData := ⟨[("2023-08-01", ["12:30", "13:00", "13:30"])]⟩

/-- Store where `a` has availability on file and a pending proposal against
`b`. -/
def dbPendingAvail : DB :=
  { users := [profileA, profileB], avails := [("a", availA)]
    matchDocs := [pendingMatchAB], priorityScores := [], locations := []
    notifications := [], nextId := 0, now := 100 }

/-- Store where `a` and `b` both have availability on file (overlapping on
`12:30` and `13:00`), profiles present, and nothing else. -/
def dbAvail : DB :=
  { users := [profileA, profileB], avails := [("a", availA), ("b", availB)]
    matchDocs := [], priorityScores := [], locations := [], notifications := []
    nextId := 0, now := 100 }

/-- The proposal `findPotentialMatches` creates for `a` against `b` when run
on `dbAvail` under `constRand` (the id `"1"` follows the baseline ledger
write). -/
def createdAB : Match :=
  { id := "1", userId := "a", matchUserId := "b", matchUser := some profileB
    suggestedDay := "2023-08-01", suggestedSlot := "12:30"
    suggestedLocation := "Tresidder Union", status := "pending", createdAt := 100
    priorityScore := some 5, acceptedBy := none }

/-! ## Frame lemmas: the score-ledger operations touch only the
`priorityScores` collection (and the id counter) -/

theorem getPriorityScoreF_frame (env : StoreEnv) (db : DB) (a b : String) :
    (getPriorityScoreF env db a b).2.users = db.users ∧
    (getPriorityScoreF env db a b).2.avails = db.avails ∧
    (getPriorityScoreF env db a b).2.matchDocs = db.matchDocs := by
  unfold getPriorityScoreF
  dsimp only
  refine ⟨?_, ?_, ?_⟩ <;> (repeat' split) <;> rfl

theorem updatePriorityScoreF_frame (env : UpdateEnv) (db : DB) (a b : String) (d : ℚ) :
    (updatePriorityScoreF env db a b d).users = db.users ∧
    (updatePriorityScoreF env db a b d).avails = db.avails ∧
    (updatePriorityScoreF env db a b d).matchDocs = db.matchDocs := by
  obtain ⟨h1, h2, h3⟩ :=
    getPriorityScoreF_frame env.inner db (canonicalPair a b).1 (canonicalPair a b).2
  unfold updatePriorityScoreF
  dsimp only
  refine ⟨?_, ?_, ?_⟩ <;> (repeat' split) <;>
    first
    | rfl
    | simp only [addScoreDoc, h1, h2, h3]

theorem updatePriorityScore_matchDocs (db : DB) (a b : String) (d : ℚ) :
    (updatePriorityScore db a b d).matchDocs = db.matchDocs :=
  (updatePriorityScoreF_frame reliableUpdateEnv db a b d).2.2

/-! ## Claim theorems -/

/-- **C4**: `acceptMatch` on a proposal whose status is already `matched`,
called by either of the two parties, returns `already_matched` without an
error and leaves the entire store — in particular the proposal's `acceptedBy`
map and the score ledger — unchanged. -/
theorem C4_already_matched_idempotent (db : DB) (u pid : String) (m : Match)
    (hfind : findMatchDoc db pid = some m)
    (hparty : m.userId = u ∨ m.matchUserId = u)
    (hst : m.status = "matched") :
    acceptMatch db u pid = (.ok ("already_matched", none), db) := by
  have hauth : ∀ other, acceptMatchAuthorized db u pid m other =
      (.ok ("already_matched", none), db) := by
    intro other
    unfold acceptMatchAuthorized
    simp [hst]
  unfold acceptMatch acceptMatchBody
  rw [hfind]
  by_cases h1 : m.userId = u
  · simp [h1, hauth]
  · rcases hparty with h | h2
    · exact absurd h h1
    · simp [h1, h2, hauth]

/-- Witness for C4 at a concrete store: re-accepting the matched proposal
`m2` of `dbMatched` by party `a` is an identity returning `already_matched`. -/
theorem C4_already_matched_idempotent_witness :
    acceptMatch dbMatched "a" "m2" = (.ok ("already_matched", none), dbMatched) :=
  C4_already_matched_idempotent dbMatched "a" "m2" matchedMatch (by decide)
    (Or.inl (by decide)) (by decide)

/-- **C7** (amended): *provided the requesting user has a non-empty
availability record*, if they already have pending proposals as initiator then
`findPotentialMatches` skips ranking and creation entirely — the store is
returned unchanged, so no proposal and no ledger record is created — and
returns exactly the existing pending proposals, each hydrated with the
candidate's current profile. -/
theorem C7_pending_short_circuit (rnd : Rand) (db : DB) (userId : String)
    (w : WeeklyAvailabilityData)
    (hA : getUserAvailability db userId = some w)
    (hne : w.availability.isEmpty = false)
    (hp : (db.matchDocs.filter (fun m =>
      m.userId == userId && m.status == "pending")).isEmpty = false) :
    findPotentialMatches rnd db userId =
      ((db.matchDocs.filter (fun m => m.userId == userId && m.status == "pending")).map
        (hydrateMatch db), db) := by
  unfold findPotentialMatches
  rw [hA]
  simp [hne, hp]

/-- Witness for C7 (amended): with availability on file and the pending
proposal `m3` outstanding, user `a` gets exactly that proposal back, hydrated,
and the store is untouched. -/
theorem C7_pending_short_circuit_witness :
    findPotentialMatches constRand dbPendingAvail "a" =
      ((dbPendingAvail.matchDocs.filter (fun m =>
         m.userId == "a" && m.status == "pending")).map (hydrateMatch dbPendingAvail),
       dbPendingAvail) :=
  C7_pending_short_circuit constRand dbPendingAvail "a" availA (by decide) (by decide)
    (by decide)

/-- **C10**: `getPriorityScore` never raises (it is total by construction:
every store failure runs the `catch` that returns the default): whenever the
ledger query fails, the pair has no ledger record and either profile is
absent, or the pair has no ledger record and any of the profile reads or the
baseline write fails, the call returns the midpoint `5` and leaves the store
untouched (in particular it persists nothing). -/
theorem C10_get_score_total (env : StoreEnv) (db : DB) (a b : String) :
    (env.queryFails = true → getPriorityScoreF env db a b = (5, db)) ∧
    (ledgerQuery db (canonicalPair a b).1 (canonicalPair a b).2 = [] →
      (getUserProfile db (canonicalPair a b).1 = none ∨
       getUserProfile db (canonicalPair a b).2 = none) →
      getPriorityScoreF env db a b = (5, db)) ∧
    (ledgerQuery db (canonicalPair a b).1 (canonicalPair a b).2 = [] →
      (env.profile1Fails = true ∨ env.profile2Fails = true ∨ env.addFails = true) →
      getPriorityScoreF env db a b = (5, db)) := by
  refine ⟨fun hq => ?_, fun hl hprof => ?_, fun hl hfail => ?_⟩
  · unfold getPriorityScoreF
    dsimp only
    simp [hq]
  · unfold getPriorityScoreF
    dsimp only
    rw [hl]
    cases hq : env.queryFails <;>
      cases h1 : env.profile1Fails <;>
      cases h2 : env.profile2Fails <;>
      rcases hp1 : getUserProfile db (canonicalPair a b).1 with _ | p1 <;>
      rcases hp2 : getUserProfile db (canonicalPair a b).2 with _ | p2 <;>
      simp_all
  · unfold getPriorityScoreF
    dsimp only
    rw [hl]
    cases hq : env.queryFails <;>
      cases h1 : env.profile1Fails <;>
      cases h2 : env.profile2Fails <;>
      cases ha : env.addFails <;>
      rcases hp1 : getUserProfile db (canonicalPair a b).1 with _ | p1 <;>
      rcases hp2 : getUserProfile db (canonicalPair a b).2 with _ | p2 <;>
      simp_all

/-- Witness for C10 at a concrete input: with an empty ledger and a failing
baseline write, `getPriorityScore` for `(a, b)` returns `5` and the store is
unchanged. -/
theorem C10_get_score_total_witness :
    getPriorityScoreF ⟨false, false, false, true⟩ dbPair "a" "b" = (5, dbPair) :=
  (C10_get_score_total ⟨false, false, false, true⟩ dbPair "a" "b").2.2 (by decide)
    (Or.inr (Or.inr (by decide)))

/-! ## Score bounds (C5) -/

theorem max3min7_bounds (x : ℚ) : 0 ≤ max 3 (min 7 x) ∧ max 3 (min 7 x) ≤ 10 :=
  ⟨le_trans (by norm_num) (le_max_left 3 (min 7 x)),
   max_le (by norm_num) (le_trans (min_le_left 7 x) (by norm_num))⟩

theorem normalizeBaseline_bounds (p q : ℚ) :
    0 ≤ normalizeBaseline p q ∧ normalizeBaseline p q ≤ 10 := by
  unfold normalizeBaseline
  split
  · constructor <;> norm_num
  · exact max3min7_bounds _

/-- The baseline heuristic always lands in `[0, 10]` (in fact in
`{5} ∪ [3, 7]`). -/
theorem calculateBaselineScore_bounds (u v : UserProfile) :
    0 ≤ calculateBaselineScore u v ∧ calculateBaselineScore u v ≤ 10 := by
  unfold calculateBaselineScore
  rcases u.surveyData with _ | sd1 <;> rcases v.surveyData with _ | sd2
  · exact (by norm_num : (0:ℚ) ≤ 5 ∧ (5:ℚ) ≤ 10)
  · exact (by norm_num : (0:ℚ) ≤ 5 ∧ (5:ℚ) ≤ 10)
  · exact (by norm_num : (0:ℚ) ≤ 5 ∧ (5:ℚ) ≤ 10)
  · exact normalizeBaseline_bounds _ _

theorem clamp10_bounds (x : ℚ) : 0 ≤ clamp10 x ∧ clamp10 x ≤ 10 :=
  ⟨le_max_left 0 (min 10 x), max_le (by norm_num) (min_le_left 10 x)⟩

theorem ScoreInv_addScoreDoc {db : DB} {u1 u2 : String} {s : ℚ} (h : ScoreInv db)
    (hs : 0 ≤ s ∧ s ≤ 10) : ScoreInv (addScoreDoc db u1 u2 s) := by
  intro d hd
  simp only [addScoreDoc, List.mem_append, List.mem_singleton] at hd
  rcases hd with hd | hd
  · exact h d hd
  · rw [hd]
    exact hs

theorem ScoreInv_getPriorityScoreF (env : StoreEnv) (db : DB) (a b : String)
    (h : ScoreInv db) : ScoreInv (getPriorityScoreF env db a b).2 := by
  unfold getPriorityScoreF
  dsimp only
  repeat' split
  any_goals exact h
  exact ScoreInv_addScoreDoc h (calculateBaselineScore_bounds _ _)

theorem ScoreInv_updatePriorityScoreF (env : UpdateEnv) (db : DB) (a b : String)
    (dl : ℚ) (h : ScoreInv db) : ScoreInv (updatePriorityScoreF env db a b dl) := by
  unfold updatePriorityScoreF
  dsimp only
  split
  · exact h
  split
  · split
    · exact ScoreInv_getPriorityScoreF env.inner db _ _ h
    · exact ScoreInv_addScoreDoc (ScoreInv_getPriorityScoreF env.inner db _ _ h)
        (clamp10_bounds _)
  next sd tl hq =>
    split
    · exact h
    intro d hd
    simp only [List.mem_map] at hd
    obtain ⟨e, he, hde⟩ := hd
    by_cases hid : e.id = sd.id
    · simp only [hid, beq_self_eq_true, if_true] at hde
      rw [← hde]
      exact clamp10_bounds _
    · simp only [beq_iff_eq, hid, if_false] at hde
      rw [← hde]
      exact h e he

/-- **C5**: after any sequence of `getPriorityScore` and `updatePriorityScore`
calls with arbitrary (positive or negative, rational) deltas — and arbitrary
injected store failures — every persisted priority-score record's score
satisfies `0 ≤ score ≤ 10`, provided every record already in the store
satisfied it. -/
theorem C5_score_bounds (db : DB) (ops : List LedgerOp) (h : ScoreInv db) :
    ScoreInv (ops.foldl applyLedgerOp db) := by
  induction ops generalizing db with
  | nil => exact h
  | cons op rest ih =>
    refine ih _ ?_
    cases op with
    | getScore env a b => exact ScoreInv_getPriorityScoreF env db a b h
    | adjust env a b d => exact ScoreInv_updatePriorityScoreF env db a b d h

/-- Witness for C5: starting from the empty ledger of `dbPair`, a sequence of
adjustments with large positive and negative deltas leaves every persisted
score within bounds. -/
theorem C5_score_bounds_witness :
    ScoreInv ([LedgerOp.adjust reliableUpdateEnv "a" "b" 9,
               LedgerOp.getScore reliableEnv "b" "a",
               LedgerOp.adjust reliableUpdateEnv "b" "a" (-20)].foldl
      applyLedgerOp dbPair) :=
  C5_score_bounds dbPair _ (by intro d hd; simp [dbPair] at hd)

/-! ## Status-update helper lemmas -/

/-- After `batch.update(matchRef, {status, acceptedBy})`, every stored match
carrying the updated id has the new status. -/
theorem updateMatchStatusAccepted_id_status (db : DB) (pid st : String)
    (ab : Option (List (String × AcceptInfo))) :
    ∀ m' ∈ (updateMatchStatusAccepted db pid st ab).matchDocs,
      m'.id = pid → m'.status = st := by
  intro m' hm hid
  simp only [updateMatchStatusAccepted, List.mem_map] at hm
  obtain ⟨e, he, hde⟩ := hm
  by_cases hp : e.id = pid
  · simp only [hp, beq_self_eq_true, if_true] at hde
    rw [← hde]
  · simp only [beq_iff_eq, hp, if_false] at hde
    rw [← hde] at hid
    exact absurd hid hp

/-- After `updateDoc(matchRef, {status})`, every stored match carrying the
updated id has the new status. -/
theorem updateMatchStatus_id_status (db : DB) (pid st : String) :
    ∀ m' ∈ (updateMatchStatus db pid st).matchDocs, m'.id = pid → m'.status = st := by
  intro m' hm hid
  simp only [updateMatchStatus, List.mem_map] at hm
  obtain ⟨e, he, hde⟩ := hm
  by_cases hp : e.id = pid
  · simp only [hp, beq_self_eq_true, if_true] at hde
    rw [← hde]
  · simp only [beq_iff_eq, hp, if_false] at hde
    rw [← hde] at hid
    exact absurd hid hp

/-- A match not carrying the updated id passes through
`batch.update(matchRef, {status, acceptedBy})` unchanged. -/
theorem updateMatchStatusAccepted_other (db : DB) (pid st : String)
    (ab : Option (List (String × AcceptInfo))) :
    ∀ m' ∈ (updateMatchStatusAccepted db pid st ab).matchDocs,
      m'.id ≠ pid → m' ∈ db.matchDocs := by
  intro m' hm hid
  simp only [updateMatchStatusAccepted, List.mem_map] at hm
  obtain ⟨e, he, hde⟩ := hm
  by_cases hp : e.id = pid
  · simp only [hp, beq_self_eq_true, if_true] at hde
    rw [← hde] at hid
    simp at hid
  · simp only [beq_iff_eq, hp, if_false] at hde
    rw [← hde]
    exact he

/-- A match not carrying the updated id passes through
`updateDoc(matchRef, {status})` unchanged. -/
theorem updateMatchStatus_other (db : DB) (pid st : String) :
    ∀ m' ∈ (updateMatchStatus db pid st).matchDocs, m'.id ≠ pid → m' ∈ db.matchDocs := by
  intro m' hm hid
  simp only [updateMatchStatus, List.mem_map] at hm
  obtain ⟨e, he, hde⟩ := hm
  by_cases hp : e.id = pid
  · simp only [hp, beq_self_eq_true, if_true] at hde
    rw [← hde] at hid
    simp at hid
  · simp only [beq_iff_eq, hp, if_false] at hde
    rw [← hde]
    exact he

/-- **C9**: when `acceptMatch` performs the acceptance that completes a match
(the proposal is `accepted` with an acceptance on record) and the other
party's profile is absent or carries no usable `surveyData.phoneNumber`, the
transition to `matched` is still committed and the call returns `matched`
with no phone number — a match can complete without any contact reveal. -/
theorem C9_match_commits_without_phone (db : DB) (u pid : String) (m : Match)
    (hfind : findMatchDoc db pid = some m)
    (hparty : m.userId = u ∨ m.matchUserId = u)
    (hst : m.status = "accepted")
    (hab : m.acceptedBy.isSome = true)
    (hphone : profilePhone db (if m.userId = u then m.matchUserId else m.userId) = none) :
    (acceptMatch db u pid).1 = .ok ("matched", none) ∧
    ∀ m' ∈ (acceptMatch db u pid).2.matchDocs, m'.id = pid → m'.status = "matched" := by
  have hm2 : (m.status == "matched") = false := by simp [hst]
  have hd2 : (m.status == "declined") = false := by simp [hst]
  have ha2 : (m.status == "accepted") = true := by simp [hst]
  obtain ⟨db₂, ab₂, hEq⟩ : ∃ db₂ ab₂, acceptMatch db u pid =
      (.ok ("matched", none), updateMatchStatusAccepted db₂ pid "matched" ab₂) := by
    unfold acceptMatch acceptMatchBody
    rw [hfind]
    by_cases h1 : m.userId = u
    · rw [if_pos h1] at hphone
      unfold acceptMatchAuthorized
      simp only [h1, beq_self_eq_true, if_true, hm2, hd2, ha2, hab, Bool.true_and,
        if_false, hphone]
      exact ⟨_, _, rfl⟩
    · rcases hparty with h | h2
      · exact absurd h h1
      · rw [if_neg h1] at hphone
        unfold acceptMatchAuthorized
        simp only [beq_iff_eq, h1, if_false, h2, beq_self_eq_true, if_true, hm2, hd2,
          ha2, hab, Bool.true_and, hphone]
        exact ⟨_, _, rfl⟩
  rw [hEq]
  exact ⟨rfl, updateMatchStatusAccepted_id_status db₂ pid "matched" ab₂⟩

/-! ## State characterization of `acceptMatch` / `declineMatch` (for C3) -/

/-- The generic-rethrow wrapper of `acceptMatch` never changes the state the
body produced. -/
theorem acceptMatch_snd (db : DB) (u pid : String) :
    (acceptMatch db u pid).2 = (acceptMatchBody db u pid).2 := by
  unfold acceptMatch
  rcases h : acceptMatchBody db u pid with ⟨res, db'⟩
  cases res <;> simp

/-- The generic-rethrow wrapper of `declineMatch` never changes the state the
body produced. -/
theorem declineMatch_snd (db : DB) (u pid : String) :
    (declineMatch db u pid).2 = (declineMatchBody db u pid).2 := by
  unfold declineMatch
  rcases h : declineMatchBody db u pid with ⟨res, db'⟩
  cases res <;> simp

/-- `acceptMatchAuthorized` either leaves the `matches` collection unchanged,
or — only when the addressed proposal is in neither terminal-for-accept status
— rewrites exactly the documents with the addressed id. -/
theorem acceptMatchAuthorized_matchDocs (db : DB) (u pid : String) (m : Match)
    (other : String) :
    (acceptMatchAuthorized db u pid m other).2.matchDocs = db.matchDocs ∨
    (m.status ≠ "matched" ∧ m.status ≠ "declined" ∧
     ∃ st ab, (acceptMatchAuthorized db u pid m other).2.matchDocs =
       db.matchDocs.map (fun e =>
         if e.id == pid then { e with status := st, acceptedBy := ab } else e)) := by
  unfold acceptMatchAuthorized
  by_cases hm : (m.status == "matched") = true
  · simp [hm]
  · by_cases hd : (m.status == "declined") = true
    · simp [hm, hd]
    · right
      refine ⟨by simpa using hm, by simpa using hd, ?_⟩
      by_cases hsec : (m.status == "accepted" && m.acceptedBy.isSome) = true
      · simp only [hm, hd, hsec, if_true, if_false, Bool.false_eq_true,
          updateMatchStatusAccepted, updatePriorityScore_matchDocs]
        exact ⟨_, _, rfl⟩
      · simp only [hm, hd, hsec, if_true, if_false, Bool.false_eq_true,
          updateMatchStatusAccepted, updatePriorityScore_matchDocs]
        exact ⟨_, _, rfl⟩

/-- `acceptMatch` either leaves the `matches` collection unchanged, or the
proposal it found is non-terminal and exactly the documents with its id are
rewritten. -/
theorem acceptMatch_matchDocs (db : DB) (u pid : String) :
    (acceptMatch db u pid).2.matchDocs = db.matchDocs ∨
    ∃ m, findMatchDoc db pid = some m ∧ m.status ≠ "matched" ∧ m.status ≠ "declined" ∧
      ∃ st ab, (acceptMatch db u pid).2.matchDocs =
        db.matchDocs.map (fun e =>
          if e.id == pid then { e with status := st, acceptedBy := ab } else e) := by
  rw [acceptMatch_snd]
  unfold acceptMatchBody
  cases hfind : findMatchDoc db pid with
  | none => exact Or.inl rfl
  | some m =>
    dsimp only
    by_cases h1 : (m.userId == u) = true
    · simp only [h1, if_true]
      rcases acceptMatchAuthorized_matchDocs db u pid m m.matchUserId with
        h | ⟨hsm, hsd, st, ab, hmap⟩
      · exact Or.inl h
      · exact Or.inr ⟨m, rfl, hsm, hsd, st, ab, hmap⟩
    · by_cases h2 : (m.matchUserId == u) = true
      · simp only [h1, h2, if_true, if_false, Bool.false_eq_true]
        rcases acceptMatchAuthorized_matchDocs db u pid m m.userId with
          h | ⟨hsm, hsd, st, ab, hmap⟩
        · exact Or.inl h
        · exact Or.inr ⟨m, rfl, hsm, hsd, st, ab, hmap⟩
      · simp only [h1, h2, if_false, Bool.false_eq_true]
        exact Or.inl trivial

/-- `declineMatch` either leaves the `matches` collection unchanged or sets the
status of exactly the documents with the addressed id to `declined`. -/
theorem declineMatch_matchDocs (db : DB) (u pid : String) :
    (declineMatch db u pid).2.matchDocs = db.matchDocs ∨
    (declineMatch db u pid).2.matchDocs =
      db.matchDocs.map (fun e =>
        if e.id == pid then { e with status := "declined" } else e) := by
  rw [declineMatch_snd]
  unfold declineMatchBody
  cases hfind : findMatchDoc db pid with
  | none => exact Or.inl rfl
  | some m =>
    dsimp only
    by_cases hperm : (m.userId != u && m.matchUserId != u) = true
    · simp only [hperm, if_true]
      exact Or.inl trivial
    · simp only [hperm, if_false, Bool.false_eq_true]
      exact Or.inr (by simp [updateMatchStatus, updatePriorityScore_matchDocs])

/-- A single `accept` or `decline` call never moves any proposal out of
`declined`. -/
theorem declined_terminal_step (db : DB) (op : LifecycleOp) (i : String)
    (h : ∀ m ∈ db.matchDocs, m.id = i → m.status = "declined") :
    ∀ m' ∈ (applyLifecycleOp db op).matchDocs, m'.id = i → m'.status = "declined" := by
  cases op with
  | accept u pid =>
    intro m' hm hid
    rcases acceptMatch_matchDocs db u pid with heq | ⟨m, hfind, hsm, hsd, st, ab, heq⟩
    · rw [show applyLifecycleOp db (.accept u pid) = (acceptMatch db u pid).2 from rfl,
        heq] at hm
      exact h m' hm hid
    · have hmem : m ∈ db.matchDocs := List.mem_of_find?_eq_some hfind
      have hmid : m.id = pid := by
        have := List.find?_some hfind
        simpa using this
      rw [show applyLifecycleOp db (.accept u pid) = (acceptMatch db u pid).2 from rfl,
        heq] at hm
      simp only [List.mem_map] at hm
      obtain ⟨e, he, hde⟩ := hm
      by_cases hp : e.id = pid
      · simp only [hp, beq_self_eq_true, if_true] at hde
        exfalso
        apply hsd
        apply h m hmem
        rw [hmid]
        rw [← hde] at hid
        exact hid
      · simp only [beq_iff_eq, hp, if_false] at hde
        rw [← hde]
        rw [← hde] at hid
        exact h e he hid
  | decline u pid =>
    intro m' hm hid
    rcases declineMatch_matchDocs db u pid with heq | heq
    · rw [show applyLifecycleOp db (.decline u pid) = (declineMatch db u pid).2 from rfl,
        heq] at hm
      exact h m' hm hid
    · rw [show applyLifecycleOp db (.decline u pid) = (declineMatch db u pid).2 from rfl,
        heq] at hm
      simp only [List.mem_map] at hm
      obtain ⟨e, he, hde⟩ := hm
      by_cases hp : e.id = pid
      · simp only [hp, beq_self_eq_true, if_true] at hde
        rw [← hde]
      · simp only [beq_iff_eq, hp, if_false] at hde
        rw [← hde]
        rw [← hde] at hid
        exact h e he hid

/-- **C3** (amended): `declined` is terminal — no sequence of `acceptMatch` /
`declineMatch` calls moves a proposal in status `declined` to any other
status — and `matched` is stable under `acceptMatch`; but (see the
counterexample) `declineMatch` by a party *does* move a `matched` proposal to
`declined`. -/
theorem C3_terminal_statuses (db : DB) (i : String) :
    (∀ ops : List LifecycleOp,
      (∀ m ∈ db.matchDocs, m.id = i → m.status = "declined") →
      ∀ m' ∈ (ops.foldl applyLifecycleOp db).matchDocs, m'.id = i → m'.status = "declined") ∧
    (∀ u pid,
      (∀ m ∈ db.matchDocs, m.id = i → m.status = "matched") →
      ∀ m' ∈ (acceptMatch db u pid).2.matchDocs, m'.id = i → m'.status = "matched") := by
  constructor
  · intro ops
    induction ops generalizing db with
    | nil => intro h; exact h
    | cons op rest ih =>
      intro h
      exact ih _ (declined_terminal_step db op i h)
  · intro u pid h m' hm hid
    rcases acceptMatch_matchDocs db u pid with heq | ⟨m, hfind, hsm, _, st, ab, heq⟩
    · rw [heq] at hm
      exact h m' hm hid
    · have hmem : m ∈ db.matchDocs := List.mem_of_find?_eq_some hfind
      have hmid : m.id = pid := by
        have := List.find?_some hfind
        simpa using this
      rw [heq] at hm
      simp only [List.mem_map] at hm
      obtain ⟨e, he, hde⟩ := hm
      by_cases hp : e.id = pid
      · simp only [hp, beq_self_eq_true, if_true] at hde
        exfalso
        apply hsm
        apply h m hmem
        rw [hmid]
        rw [← hde] at hid
        exact hid
      · simp only [beq_iff_eq, hp, if_false] at hde
        rw [← hde]
        rw [← hde] at hid
        exact h e he hid

/-- Witness for C3 (amended): with the store holding only a declined proposal
`m4`, a burst of accepts and declines leaves it declined; and with the store
holding only the matched proposal `m2`, a re-accept leaves it matched. -/
theorem C3_terminal_statuses_witness :
    (∀ m' ∈ ([LifecycleOp.accept "a" "m4", LifecycleOp.decline "b" "m4",
              LifecycleOp.decline "a" "m4"].foldl applyLifecycleOp
        dbDeclined).matchDocs, m'.id = "m4" → m'.status = "declined") ∧
    (∀ m' ∈ (acceptMatch dbMatched "b" "m2").2.matchDocs,
      m'.id = "m2" → m'.status = "matched") :=
  ⟨(C3_terminal_statuses dbDeclined "m4").1 _ (by decide),
   (C3_terminal_statuses dbMatched "m2").2 "b" "m2" (by decide)⟩

/-- Witness for C9: `b` completes the match `m1` (first-accepted by `a`);
`a`'s profile has no survey record, so the match completes with no phone
number revealed. -/
theorem C9_match_commits_without_phone_witness :
    (acceptMatch dbAcceptedByA "b" "m1").1 = .ok ("matched", none) ∧
    ∀ m' ∈ (acceptMatch dbAcceptedByA "b" "m1").2.matchDocs,
      m'.id = "m1" → m'.status = "matched" :=
  C9_match_commits_without_phone dbAcceptedByA "b" "m1" acceptedOnlyByA (by decide)
    (Or.inr (by decide)) (by decide) (by decide) (by decide)

/-- **C2** (code bug, evaluated at the failing input): on a proposal in status
`accepted` whose only recorded acceptance belongs to the caller themself, a
repeated `acceptMatch` by that same caller transitions the proposal to
`matched` and reveals the other party's phone number — although the other
party never accepted.  The code only tests `status === 'accepted' &&
matchData.acceptedBy` and never checks *who* accepted, so the double-opt-in
contract ("the other party already accepted") is violated. -/
theorem C2_same_user_reaccept_reveals :
    acceptedOnlyByA.status = "accepted" ∧
    acceptedOnlyByA.acceptedBy = some [("a", ⟨60, true⟩)] ∧
    (acceptMatch dbAcceptedByA "a" "m1").1 = .ok ("matched", some "555-0100") ∧
    ∀ m ∈ (acceptMatch dbAcceptedByA "a" "m1").2.matchDocs, m.status = "matched" := by
  decide

/-- **C3** (counterexample): `declineMatch` invoked by a party on an
already-`matched` proposal does *not* leave its status `matched`: it
unconditionally sets the status to `declined`. -/
theorem C3_decline_after_match_counterexample :
    matchedMatch.status = "matched" ∧
    (declineMatch dbMatched "a" "m2").1 = .ok () ∧
    (declineMatch dbMatched "a" "m2").2.matchDocs.map (·.status) = ["declined"] := by
  decide

/-- **C6** (code bug, evaluated at the failing input): starting from an empty
ledger with both profiles present, a single `updatePriorityScore(a, b, 1)`
persists *two* ledger records for the canonical pair `(a, b)` — the baseline
written by the nested `getPriorityScore` call and the adjusted score written
right after it — violating "exactly one ledger record per unordered pair". -/
theorem C6_duplicate_ledger_records :
    dbPair.priorityScores = [] ∧
    getUserProfile dbPair "a" = some profileA ∧
    getUserProfile dbPair "b" = some profileB ∧
    (ledgerQuery (updatePriorityScore dbPair "a" "b" 1) "a" "b").length = 2 := by
  decide

/-- **C7** (counterexample): a requesting user who *does* have a pending
proposal as initiator but no availability record gets `[]` back from
`findPotentialMatches` — not their existing pending proposals — because the
empty-availability guard returns before the pending-proposal lookup. -/
theorem C7_pending_but_no_availability_counterexample :
    (dbPendingNoAvail.matchDocs.filter (fun m =>
       m.userId == "a" && m.status == "pending")).length = 1 ∧
    findPotentialMatches constRand dbPendingNoAvail "a" = ([], dbPendingNoAvail) := by
  decide

/-- **C8** (code bug, evaluated at the failing input): `declineMatch` (and
`acceptMatch`) on a nonexistent proposal id do throw `Match not found`
internally, but the surrounding `catch` rethrows the generic
`Failed to decline meal match.` / `Failed to accept meal match.` — the very
same failure the caller receives for a permission violation — so no typed
`NotFound` failure distinguishable from other failure kinds reaches the
caller. -/
theorem C8_notfound_not_surfaced :
    (declineMatchBody dbMatched "u" "nope").1 = .error "Match not found" ∧
    (declineMatch dbMatched "u" "nope").1 = .error "Failed to decline meal match." ∧
    (declineMatch dbMatched "u" "m2").1 = .error "Failed to decline meal match." ∧
    (acceptMatchBody dbMatched "u" "nope").1 = .error "Match not found" ∧
    (acceptMatch dbMatched "u" "nope").1 = .error "Failed to accept meal match." ∧
    (acceptMatch dbMatched "u" "m2").1 = .error "Failed to accept meal match." := by
  decide

/-! ## Availability containment (C1) -/

/-- A random-index pick `l.getD (k % l.length) d` from a non-empty list is a
member of the list. -/
theorem getD_mod_mem {α : Type} (l : List α) (k : Nat) (d : α) (hl : l ≠ []) :
    l.getD (k % l.length) d ∈ l := by
  have hlen : 0 < l.length := List.length_pos.mpr hl
  have hk : k % l.length < l.length := Nat.mod_lt _ hlen
  rw [List.getD_eq_getElem?_getD, List.getElem?_eq_getElem hk]
  exact List.getElem_mem hk

/-- Two stores with the same availability collection resolve every user's
availability identically. -/
theorem getUserAvailability_congr {db₁ db₂ : DB} (h : db₁.avails = db₂.avails)
    (x : String) : getUserAvailability db₁ x = getUserAvailability db₂ x := by
  unfold getUserAvailability
  rw [h]

/-- When the negotiation loop returns a day/slot pair, the requester has the
day on file with the slot in their list, and so does the candidate. -/
theorem findOverlapSlot_spec (uA cA : WeeklyAvailabilityData) (pick : Nat) :
    ∀ (days : List String) (ds : String × String),
    findOverlapSlot uA cA pick days = some ds →
    ∃ uT, availLookup uA ds.1 = some uT ∧
    ∃ cT, availLookup cA ds.1 = some cT ∧ ds.2 ∈ uT ∧ ds.2 ∈ cT := by
  intro days
  induction days with
  | nil =>
    intro ds h
    simp [findOverlapSlot] at h
  | cons d rest ih =>
    intro ds h
    rw [findOverlapSlot] at h
    rcases hu : availLookup uA d with _ | uT
    · rw [hu] at h
      exact ih ds h
    · rw [hu] at h
      dsimp only at h
      by_cases hue : uT.isEmpty = true
      · rw [if_pos hue] at h
        exact ih ds h
      · rw [if_neg hue] at h
        by_cases hce : ((availLookup cA d).getD []).isEmpty = true
        · rw [if_pos hce] at h
          exact ih ds h
        · rw [if_neg hce] at h
          by_cases hoe :
              (uT.filter (fun t => ((availLookup cA d).getD []).contains t)).isEmpty = true
          · rw [if_pos hoe] at h
            exact ih ds h
          · rw [if_neg hoe] at h
            rcases hc : availLookup cA d with _ | cT
            · rw [hc] at hce
              simp at hce
            · rw [hc] at h hoe
              simp only [Option.getD_some] at h hoe
              have hds := Option.some.inj h
              subst hds
              have hne : uT.filter (fun t => cT.contains t) ≠ [] := by
                simpa [List.isEmpty_iff] using hoe
              have hmem := getD_mod_mem _ pick "" hne
              obtain ⟨hmem1, hmem2⟩ := List.mem_filter.mp hmem
              exact ⟨uT, hu, cT, hc, hmem1, List.mem_of_elem_eq_true hmem2⟩

/-- `scoreCandidates` (the priority-score pass over the candidate pool) only
touches the score ledger: users, availability and matches are unchanged. -/
theorem scoreCandidates_frame (userId : String) (favs : List String) :
    ∀ (l : List UserProfile) (db : DB),
    (scoreCandidates userId favs db l).2.users = db.users ∧
    (scoreCandidates userId favs db l).2.avails = db.avails ∧
    (scoreCandidates userId favs db l).2.matchDocs = db.matchDocs := by
  intro l
  induction l with
  | nil =>
    intro db
    exact ⟨rfl, rfl, rfl⟩
  | cons u rest ih =>
    intro db
    obtain ⟨g1, g2, g3⟩ := getPriorityScoreF_frame reliableEnv db userId u.uid
    obtain ⟨i1, i2, i3⟩ := ih (getPriorityScore db userId u.uid).2
    unfold scoreCandidates
    dsimp only
    exact ⟨by rw [i1]; exact g1, by rw [i2]; exact g2, by rw [i3]; exact g3⟩

/-- The proposal-creation loop preserves the availability collection, and
every match document in its final store is either pre-existing or carries a
day and slot present in both the requester's availability (the `uA` the loop
negotiates with) and the stored availability of its candidate. -/
theorem proposeLoop_spec (rnd : Rand) (uA : WeeklyAvailabilityData)
    (days locs : List String) (uid : String) :
    ∀ (cands : List RankedUser) (db : DB) (mus : List String) (k : Nat),
    (proposeLoop rnd uA days locs uid db cands mus k).2.avails = db.avails ∧
    ∀ m' ∈ (proposeLoop rnd uA days locs uid db cands mus k).2.matchDocs,
      m' ∈ db.matchDocs ∨
      ∃ cw, getUserAvailability db m'.matchUserId = some cw ∧
      ∃ uT, availLookup uA m'.suggestedDay = some uT ∧
      ∃ cT, availLookup cw m'.suggestedDay = some cT ∧
      m'.suggestedSlot ∈ uT ∧ m'.suggestedSlot ∈ cT := by
  intro cands
  induction cands with
  | nil =>
    intro db mus k
    exact ⟨rfl, fun m' hm => Or.inl hm⟩
  | cons c rest ih =>
    intro db mus k
    rw [proposeLoop]
    by_cases hcm : mus.contains c.user.uid = true
    · simp only [hcm, if_true]
      exact ih db mus (k + 1)
    · simp only [hcm, if_false, Bool.false_eq_true]
      rcases hoa : getUserAvailability db c.user.uid with _ | oA
      · exact ih db mus (k + 1)
      · dsimp only
        by_cases hoe : oA.availability.isEmpty = true
        · simp only [hoe, if_true]
          exact ih db mus (k + 1)
        · simp only [hoe, if_false, Bool.false_eq_true]
          rcases hfs : findOverlapSlot uA oA (rnd.timePick k) (rnd.shuffle k days)
            with _ | ds
          · exact ih db (mus ++ [c.user.uid]) (k + 1)
          · dsimp only
            refine ⟨(ih _ _ (k + 1)).1, ?_⟩
            intro m' hm
            rcases (ih _ _ (k + 1)).2 m' hm with hold | ⟨cw, hcw, rest2⟩
            · rcases List.mem_append.mp hold with hpre | hnew
              · exact Or.inl hpre
              · have hm' := List.mem_singleton.mp hnew
                subst hm'
                right
                refine ⟨oA, hoa, ?_⟩
                obtain ⟨uT, huT, cT, hcT, h1, h2⟩ :=
                  findOverlapSlot_spec uA oA (rnd.timePick k) (rnd.shuffle k days) ds hfs
                exact ⟨uT, huT, cT, hcT, h1, h2⟩
            · right
              exact ⟨cw, hcw, rest2⟩

/-- **C1**: (1) every proposal in the store after `findPotentialMatches` —
beyond those already present — carries a `suggestedDay`/`suggestedSlot`
present in *both* the requesting user's and its candidate's availability maps
for that day; (2) for a candidate with whom no day yields a non-empty slot
intersection, and (3) for a candidate with no availability record at all, no
proposal is created. -/
theorem C1_availability_containment (rnd : Rand) (db : DB) (userId : String) :
    (∀ m' ∈ (findPotentialMatches rnd db userId).2.matchDocs,
      m' ∈ db.matchDocs ∨
      ∃ uw, getUserAvailability db userId = some uw ∧
      ∃ cw, getUserAvailability db m'.matchUserId = some cw ∧
      ∃ uT, availLookup uw m'.suggestedDay = some uT ∧
      ∃ cT, availLookup cw m'.suggestedDay = some cT ∧
      m'.suggestedSlot ∈ uT ∧ m'.suggestedSlot ∈ cT) ∧
    (∀ cUid uw cw, getUserAvailability db userId = some uw →
      getUserAvailability db cUid = some cw →
      (∀ day, slotIntersection uw cw day = []) →
      ∀ m' ∈ (findPotentialMatches rnd db userId).2.matchDocs,
        m'.matchUserId = cUid → m' ∈ db.matchDocs) ∧
    (∀ cUid, getUserAvailability db cUid = none →
      ∀ m' ∈ (findPotentialMatches rnd db userId).2.matchDocs,
        m'.matchUserId = cUid → m' ∈ db.matchDocs) := by
  have key : ∀ m' ∈ (findPotentialMatches rnd db userId).2.matchDocs,
      m' ∈ db.matchDocs ∨
      ∃ uw, getUserAvailability db userId = some uw ∧
      ∃ cw, getUserAvailability db m'.matchUserId = some cw ∧
      ∃ uT, availLookup uw m'.suggestedDay = some uT ∧
      ∃ cT, availLookup cw m'.suggestedDay = some cT ∧
      m'.suggestedSlot ∈ uT ∧ m'.suggestedSlot ∈ cT := by
    unfold findPotentialMatches
    rcases ha : getUserAvailability db userId with _ | uw
    · exact fun m' hm => Or.inl hm
    · dsimp only
      by_cases hem : uw.availability.isEmpty = true
      · simp only [hem, if_true]
        exact fun m' hm => Or.inl hm
      · simp only [hem, if_false, Bool.false_eq_true]
        by_cases hpend :
            (db.matchDocs.filter (fun m =>
              m.userId == userId && m.status == "pending")).isEmpty = true
        · -- no pending proposals: the ranking and creation pipeline runs
          simp only [hpend, Bool.not_true, if_false, Bool.false_eq_true]
          intro m' hm
          obtain ⟨sc1, sc2, sc3⟩ := scoreCandidates_frame userId
            ((((getUserProfile db userId).bind (·.surveyData)).bind
              (·.favoriteDiningHalls)).getD [])
            (db.users.filter (fun u => u.surveyCompleted && u.uid != userId)) db
          rcases (proposeLoop_spec rnd uw (availDays uw) _ userId _ _ [] 0).2 m' hm with
            hold | ⟨cw, hcw, rest2⟩
          · rw [sc3] at hold
            exact Or.inl hold
          · right
            refine ⟨uw, rfl, cw, ?_, rest2⟩
            rw [← getUserAvailability_congr sc2 m'.matchUserId]
            exact hcw
        · -- pending proposals exist: they are returned, the store is unchanged
          simp only [hpend, Bool.not_false, if_true, Bool.false_eq_true]
          exact fun m' hm => Or.inl hm
  refine ⟨key, ?_, ?_⟩
  · intro cUid uw cw huw hcw hempty m' hm hmc
    rcases key m' hm with hold | ⟨uw', ha', cw', hc', uT, huT, cT, hcT, h1, h2⟩
    · exact hold
    · exfalso
      rw [huw] at ha'
      have heuw := Option.some.inj ha'
      rw [hmc, hcw] at hc'
      have hecw := Option.some.inj hc'
      have hmemI : m'.suggestedSlot ∈ slotIntersection uw cw m'.suggestedDay := by
        unfold slotIntersection
        rw [heuw, hecw, huT, hcT]
        simp only [Option.getD_some]
        exact List.mem_filter.mpr ⟨h1, List.elem_eq_true_of_mem h2⟩
      rw [hempty m'.suggestedDay] at hmemI
      simp at hmemI
  · intro cUid hnone m' hm hmc
    rcases key m' hm with hold | ⟨uw', ha', cw', hc', _⟩
    · exact hold
    · rw [hmc, hnone] at hc'
      exact absurd hc' (by simp)

/-- Witness for C1: the concrete proposal created for `a` against `b` on
`dbAvail` (12:30 on 2023-08-01, the spec's scenario) lies in both parties'
availability for that day. -/
theorem C1_availability_containment_witness :
    createdAB ∈ (findPotentialMatches constRand dbAvail "a").2.matchDocs ∧
    (createdAB ∈ dbAvail.matchDocs ∨
     ∃ uw, getUserAvailability dbAvail "a" = some uw ∧
     ∃ cw, getUserAvailability dbAvail createdAB.matchUserId = some cw ∧
     ∃ uT, availLookup uw createdAB.suggestedDay = some uT ∧
     ∃ cT, availLookup cw createdAB.suggestedDay = some cT ∧
     createdAB.suggestedSlot ∈ uT ∧ createdAB.suggestedSlot ∈ cT) :=
  ⟨by decide,
   (C1_availability_containment constRand dbAvail "a").1 createdAB (by decide)⟩

end MunchClub
